import Mathlib

/-!
# Verification of the mono-firefly-sync reconciliation engine

A shallow embedding of `src/index.ts` (the monobank → Firefly III sync
service).  Pure computations of the source are translated into Lean
functions; the stateful loops of `recover` are translated into explicit
recursion over a trace state.  External collaborators (the bank statement
API, the ISO 4217 currency table) are modelled from their contracts, as
noted on each definition.  Timestamps are unix seconds (`Int`); ledger
major-unit values coming from Firefly are modelled as `ℚ`; bank minor-unit
values are `Int`.
-/

namespace MonoSync

/-- A monobank account, as parsed by `clientDataSchema` (the fields used by
the engine). -/
structure MonoAccount where
  id : String
  currencyCode : Nat
  balance : Int
  iban : String
deriving DecidableEq, Repr

/-- A bank statement entry, as parsed by `statementItemSchema`.
`time` is unix seconds (the schema stores a `Date`; every use converts back
through `getUnixTime`).  `amount` is signed minor units, `balance` the
balance after the entry in minor units. -/
structure StatementItem where
  id : String
  time : Int
  description : String
  amount : Int
  balance : Int
  comment : Option String
  currencyCode : Nat
deriving DecidableEq, Repr

/-- A Firefly account, as parsed by `fireflyAccountSchema` (the
`attributes` are flattened in). `current_balance` is in major units. -/
structure FireflyAccount where
  id : Nat
  iban : Option String
  current_balance : ℚ
deriving DecidableEq, Repr

/-- A Firefly transaction journal entry, as parsed by
`fireflyTransactionItemSchema` (the fields used by `recover`).
`date` is unix seconds. -/
structure FireflyTxItem where
  date : Int
  tags : List String
  source_id : Option Nat
  source_iban : Option String
  destination_id : Option Nat
  destination_iban : Option String
  amount : ℚ
  type : String
  external_id : Option String
  external_url : Option String
deriving DecidableEq, Repr

/-- A Firefly transaction group, as parsed by `fireflyTransactionSchema`:
`recover` only reads `attributes.transactions`. -/
structure FireflyTransaction where
  transactions : List FireflyTxItem
deriving DecidableEq, Repr

/-- The provenance tag stamped on every created transaction
(`TRANSACTION_TAG` in the source). -/
def TRANSACTION_TAG : String := "monosync"

/-- The provenance marker placed into `external_url`
(the literal string in `monobankToFireflyTransaction` and `recover`). -/
def PROVENANCE_MARKER : String := "https://api.monobank.ua"

/-- The transaction-creation payload built by
`monobankToFireflyTransaction`.  The source puts exactly one of
`destination_id` / `source_id` into the object (a computed key); here both
are present as options with the absent one `none`.  The source renders
`amount` as `String(Math.abs(item.amount) / 100)`; the field is modelled by
the exact rational value of that division (its binary64 evaluation and the
string rendering are outside this embedding). -/
structure Payload where
  type : String
  date : Int
  currency_code : String
  amount : ℚ
  description : String
  notes : Option String
  destination_id : Option Nat
  source_id : Option Nat
  external_id : String
  external_url : String
  tags : List String
deriving DecidableEq, Repr

/-- Models the `currency-codes` npm package's numeric → alphabetic lookup
(external dependency; an ISO 4217 table).  Only codes relevant to the
claims are tabulated; any code outside the table yields `none`, upon which
the source's non-null assertion makes the `.code` access throw. -/
def numericToAlpha : Nat → Option String
  | 980 => some "UAH"
  | 840 => some "USD"
  | 978 => some "EUR"
  | 985 => some "PLN"
  | _ => none

/-- Embedding of `monobankToFireflyTransaction` (src/index.ts:194-219).
`cd` is the cached monobank account list (`clientData.accounts`), `fa` the
Firefly account list.  `.ok none` models the source returning `null`
(the Skip outcome); `.error _` models the `TypeError` thrown when the
currency lookup's non-null assertion fails. -/
def monobankToFireflyTransaction (cd : List MonoAccount) (fa : List FireflyAccount)
    (accountId : String) (st : StatementItem) : Except String (Option Payload) :=
  match cd.find? (fun a => a.id == accountId) with
  | none => .ok none
  | some monoAccount =>
    match fa.find? (fun a => a.iban == some monoAccount.iban) with
    | none => .ok none
    | some fireflyAccount =>
      match numericToAlpha st.currencyCode with
      | none => .error "unknown numeric currency code"
      | some code => .ok (some {
          type := if st.amount > 0 then "deposit" else "withdrawal"
          date := st.time
          currency_code := code
          amount := (st.amount.natAbs : ℚ) / 100
          description := st.description
          notes := st.comment
          destination_id := if st.amount > 0 then some fireflyAccount.id else none
          source_id := if st.amount > 0 then none else some fireflyAccount.id
          external_id := st.id
          external_url := PROVENANCE_MARKER
          tags := [TRANSACTION_TAG] })

/-- Models the bank statement API behind `getMonobankStatements`
(src/index.ts:146-152; external collaborator).  Per its contract the
response is the newest 500 entries of the account's history whose time
lies in the inclusive range.  `history` is the account's full statement
history, newest first. -/
def getMonobankStatements (history : List StatementItem) (fromT : Int) (toT : Option Int) :
    List StatementItem :=
  (history.filter (fun e =>
    decide (fromT ≤ e.time) &&
      match toT with
      | none => true
      | some t => decide (e.time ≤ t))).take 500

/-- Trace of one page's processing by the inner `for` loop of `recover`
(src/index.ts:289-302).

* `seen` — the `importedStatementIds` set (a nodup list of ids);
* `encountered` — the entries the loop iterated over before stopping;
* `processed` — the entries whose id was newly inserted into the set
  (these are the ones that get mapped and written);
* `calls` — the arguments of the `createFireflyTransaction` calls made
  (note the source calls it unconditionally, also with a `null` mapping);
* `aborted` — whether a mapping error was thrown (which propagates out of
  `recover`). -/
structure PageOut where
  seen : List String
  encountered : List StatementItem
  processed : List StatementItem
  calls : List (Option Payload)
  aborted : Bool
deriving DecidableEq, Repr

/-- Embedding of the inner statement loop of `recover`
(src/index.ts:289-302): skip ids already in the set, otherwise insert the
id, map the entry and call `createFireflyTransaction` with the result
(whatever it is — the source has no null check).  A mapping error stops
the whole pass. -/
def processStatements (cd : List MonoAccount) (fa : List FireflyAccount) (accountId : String) :
    List String → List StatementItem → PageOut
  | seen, [] => ⟨seen, [], [], [], false⟩
  | seen, st :: rest =>
    if seen.contains st.id then
      let r := processStatements cd fa accountId seen rest
      ⟨r.seen, st :: r.encountered, r.processed, r.calls, r.aborted⟩
    else
      match monobankToFireflyTransaction cd fa accountId st with
      | .error _ => ⟨st.id :: seen, [st], [st], [], true⟩
      | .ok p =>
        let r := processStatements cd fa accountId (st.id :: seen) rest
        ⟨r.seen, st :: r.encountered, st :: r.processed, p :: r.calls, r.aborted⟩

/-- Trace of a whole page walk / backfill: as `PageOut`, plus the number of
statement fetches issued. -/
structure WalkOut where
  seen : List String
  encountered : List StatementItem
  processed : List StatementItem
  calls : List (Option Payload)
  fetches : Nat
  aborted : Bool
deriving DecidableEq, Repr

/-- Embedding of one account's `while (true)` page walk in `recover`
(src/index.ts:284-308): fetch a page, process it, stop on a short page
(fewer than 500 entries), otherwise refetch with `to` set to the time of
the page's last (oldest) entry.  `fuel` bounds the recursion; exhausting
it is reported as an abort (adequate fuel never exhausts it). -/
def statementWalk (cd : List MonoAccount) (fa : List FireflyAccount)
    (history : List StatementItem) (accountId : String) (fromT : Int) :
    Option Int → List String → Nat → WalkOut
  | _, seen, 0 => ⟨seen, [], [], [], 0, true⟩
  | toT, seen, fuel+1 =>
    let page := getMonobankStatements history fromT toT
    let pr := processStatements cd fa accountId seen page
    if pr.aborted then ⟨pr.seen, pr.encountered, pr.processed, pr.calls, 1, true⟩
    else if page.length < 500 then ⟨pr.seen, pr.encountered, pr.processed, pr.calls, 1, false⟩
    else
      match page.getLast? with
      | none => ⟨pr.seen, pr.encountered, pr.processed, pr.calls, 1, false⟩
      | some last =>
        let r := statementWalk cd fa history accountId fromT (some last.time) pr.seen fuel
        ⟨r.seen, pr.encountered ++ r.encountered, pr.processed ++ r.processed,
         pr.calls ++ r.calls, r.fetches + 1, r.aborted⟩

/-- Embedding of the Backfill loop over all accounts in `recover`
(src/index.ts:283-309): walk every account's statements from the anchor
time, threading one shared `importedStatementIds` set.  A thrown mapping
error aborts the remaining accounts (it propagates out of `recover`).
`bank` maps an account id to that account's full statement history. -/
def backfillAll (cd : List MonoAccount) (fa : List FireflyAccount)
    (bank : String → List StatementItem) (fromT : Int) (fuel : Nat) :
    List MonoAccount → List String → WalkOut
  | [], seen => ⟨seen, [], [], [], 0, false⟩
  | a :: rest, seen =>
    let r := statementWalk cd fa (bank a.id) a.id fromT none seen fuel
    if r.aborted then r
    else
      let r2 := backfillAll cd fa bank fromT fuel rest r.seen
      ⟨r2.seen, r.encountered ++ r2.encountered, r.processed ++ r2.processed,
       r.calls ++ r2.calls, r.fetches + r2.fetches, r2.aborted⟩

/-- The Backfill pass as run by `recover` once the anchor statement is
known (src/index.ts:279-311): the set starts as `{anchor.id}`, the range
starts at the anchor's timestamp, and every account of `clientData` is
walked. -/
def recoverBackfill (cd : List MonoAccount) (fa : List FireflyAccount)
    (bank : String → List StatementItem) (anchor : StatementItem) (fuel : Nat) : WalkOut :=
  backfillAll cd fa bank anchor.time fuel cd [anchor.id]

/-- The count logged at src/index.ts:311: `importedStatementIds.size - 1`
(the seen list is kept duplicate-free, so its length is the set's size). -/
def recoveredCount (r : WalkOut) : Nat := r.seen.length - 1

/-- `startOfDay` (date-fns) followed by `getUnixTime`, for a UTC process
timezone: the start of the UTC calendar day of `t`, in unix seconds. -/
def dayStart (t : Int) : Int := 86400 * (t.fdiv 86400)

/-- `endOfDay` (date-fns, 23:59:59.999) followed by `getUnixTime` (which
truncates the milliseconds), for a UTC process timezone. -/
def dayEnd (t : Int) : Int := dayStart t + 86399

/-- JavaScript's `Math.round`: half-up rounding, `⌊q + 1/2⌋`, written as an
integer floor division so that it is directly computable on `ℚ`.
`jsRound_eq_round` below identifies it with Mathlib's `round`. -/
def jsRound (q : ℚ) : ℤ := (2 * q.num + (q.den : ℤ)) / (2 * (q.den : ℤ))

/-- `jsRound` is the usual half-up rounding function. -/
theorem jsRound_eq_round (q : ℚ) : jsRound q = round q := by
  rw [round_eq]
  have h : q + 1/2 = ((2 * q.num + (q.den:ℤ) : ℤ) : ℚ) / ((2 * q.den : ℕ) : ℚ) := by
    have hd : ((q.den : ℚ)) ≠ 0 := by exact_mod_cast q.den_nz
    conv_lhs => rw [← Rat.num_div_den q]
    push_cast
    field_simp
    ring
  rw [h, Rat.floor_intCast_div_natCast]
  unfold jsRound
  push_cast
  ring_nf

/-- The anchor-candidate predicate of src/index.ts:265-273: the statement's
balance-after equals the Firefly account's current balance in rounded minor
units, and its signed amount and iban side agree with the journal's type.
(`Math.round` of the statement's integer balance and amount is the
identity and is omitted.) -/
def anchorCond (fj : FireflyTxItem) (ffa : FireflyAccount) (account : MonoAccount)
    (st : StatementItem) : Bool :=
  st.balance == jsRound (ffa.current_balance * 100) &&
  ((fj.type == "withdrawal" && st.amount == jsRound ((-fj.amount) * 100)
      && some account.iban == fj.source_iban) ||
   (fj.type == "deposit" && st.amount == jsRound (fj.amount * 100)
      && some account.iban == fj.destination_iban))

/-- Embedding of the candidate-account loop of `recover`
(src/index.ts:254-277): for each eligible account fetch the statements of
the journal's calendar day and look for a statement satisfying
`anchorCond`.  `.error ()` models the crash of the non-null assertion when
the journal's own Firefly account cannot be found (src/index.ts:261-263);
`.ok none` means no candidate account yielded a match. -/
def findAnchorAccounts (fa : List FireflyAccount) (bank : String → List StatementItem)
    (fj : FireflyTxItem) : List MonoAccount → Except Unit (Option (MonoAccount × StatementItem))
  | [] => .ok none
  | account :: rest =>
    let statements := getMonobankStatements (bank account.id)
      (dayStart fj.date) (some (dayEnd fj.date))
    match (if fj.type == "withdrawal"
        then fa.find? (fun it => some it.id == fj.source_id)
        else fa.find? (fun it => some it.id == fj.destination_id)) with
    | none => .error ()
    | some ffa =>
      match statements.find? (fun st => anchorCond fj ffa account st) with
      | none => findAnchorAccounts fa bank fj rest
      | some st => .ok (some (account, st))

/-- Embedding of the anchor-search scan of `recover` (src/index.ts:241-316):
iterate the Firefly transaction sequence; skip journals without the
provenance tag or marker and journals with no eligible account; inside a
tagged journal, try the candidate accounts; return the first match, `none`
when the sequence is exhausted or a lookup crash aborts the scan.
(The source reads `transactions[0]` of each group; an empty group would
throw, aborting recovery — modelled as `none`.) -/
def findAnchor (cd : List MonoAccount) (fa : List FireflyAccount)
    (bank : String → List StatementItem) :
    List FireflyTransaction → Option (MonoAccount × StatementItem)
  | [] => none
  | tx :: rest =>
    match tx.transactions with
    | [] => none
    | fj :: _ =>
      if !(fj.tags.contains TRANSACTION_TAG || fj.external_url == some PROVENANCE_MARKER) then
        findAnchor cd fa bank rest
      else
        let eligible := cd.filter
          (fun a => some a.iban == fj.source_iban || some a.iban == fj.destination_iban)
        if eligible.isEmpty then
          findAnchor cd fa bank rest
        else
          match findAnchorAccounts fa bank fj eligible with
          | .error _ => none
          | .ok none => findAnchor cd fa bank rest
          | .ok (some r) => some r

/-- Trace of the `createFireflyTransaction` calls caused by a sequence of
live webhook deliveries (the `fastify.post` handler, src/index.ts:330-351):
each delivered event is mapped and the result — including a `null` mapping
— is passed to `createFireflyTransaction` unconditionally; only a thrown
mapping error prevents the call (each delivery is an independent handler
invocation). -/
def liveCreationCalls (cd : List MonoAccount) (fa : List FireflyAccount)
    (events : List (String × StatementItem)) : List (Option Payload) :=
  events.filterMap (fun ev => (monobankToFireflyTransaction cd fa ev.1 ev.2).toOption)

/-! ### Structural deduplication invariants of the Backfill loops -/

theorem processStatements_nil (cd : List MonoAccount) (fa : List FireflyAccount)
    (aid : String) (seen : List String) :
    processStatements cd fa aid seen [] = ⟨seen, [], [], [], false⟩ := rfl

theorem processStatements_cons_mem (cd : List MonoAccount) (fa : List FireflyAccount)
    (aid : String) (seen : List String) (st : StatementItem) (rest : List StatementItem)
    (h : st.id ∈ seen) :
    processStatements cd fa aid seen (st :: rest)
      = { processStatements cd fa aid seen rest with
          encountered := st :: (processStatements cd fa aid seen rest).encountered } := by
  simp [processStatements, h]

theorem processStatements_cons_err (cd : List MonoAccount) (fa : List FireflyAccount)
    (aid : String) (seen : List String) (st : StatementItem) (rest : List StatementItem)
    (e : String) (h : st.id ∉ seen) (hm : monobankToFireflyTransaction cd fa aid st = .error e) :
    processStatements cd fa aid seen (st :: rest) = ⟨st.id :: seen, [st], [st], [], true⟩ := by
  simp [processStatements, h, hm]

theorem processStatements_cons_ok (cd : List MonoAccount) (fa : List FireflyAccount)
    (aid : String) (seen : List String) (st : StatementItem) (rest : List StatementItem)
    (p : Option Payload) (h : st.id ∉ seen)
    (hm : monobankToFireflyTransaction cd fa aid st = .ok p) :
    processStatements cd fa aid seen (st :: rest)
      = { processStatements cd fa aid (st.id :: seen) rest with
          encountered := st :: (processStatements cd fa aid (st.id :: seen) rest).encountered
          processed := st :: (processStatements cd fa aid (st.id :: seen) rest).processed
          calls := p :: (processStatements cd fa aid (st.id :: seen) rest).calls } := by
  simp [processStatements, h, hm]

theorem processStatements_seen_eq (cd : List MonoAccount) (fa : List FireflyAccount)
    (aid : String) (page : List StatementItem) : ∀ seen : List String,
    (processStatements cd fa aid seen page).seen
      = ((processStatements cd fa aid seen page).processed.map
          (fun st => st.id)).reverse ++ seen := by
  induction page with
  | nil => intro seen; simp [processStatements_nil]
  | cons st rest ih =>
    intro seen
    by_cases h : st.id ∈ seen
    · rw [processStatements_cons_mem cd fa aid seen st rest h]
      simpa using ih seen
    · cases hm : monobankToFireflyTransaction cd fa aid st with
      | error e => simp [processStatements_cons_err cd fa aid seen st rest e h hm]
      | ok p =>
        rw [processStatements_cons_ok cd fa aid seen st rest p h hm]
        simp [ih (st.id :: seen)]

theorem processStatements_seen_mono (cd : List MonoAccount) (fa : List FireflyAccount)
    (aid : String) (page : List StatementItem) (seen : List String) {s : String}
    (h : s ∈ seen) : s ∈ (processStatements cd fa aid seen page).seen := by
  rw [processStatements_seen_eq]
  exact List.mem_append_right _ h

theorem processStatements_processed_not_mem (cd : List MonoAccount) (fa : List FireflyAccount)
    (aid : String) (page : List StatementItem) : ∀ seen : List String,
    ∀ st_ ∈ (processStatements cd fa aid seen page).processed, st_.id ∉ seen := by
  induction page with
  | nil => intro seen st_ hmem; simp [processStatements_nil] at hmem
  | cons st rest ih =>
    intro seen st_ hmem
    by_cases h : st.id ∈ seen
    · rw [processStatements_cons_mem cd fa aid seen st rest h] at hmem
      exact ih seen st_ hmem
    · cases hm : monobankToFireflyTransaction cd fa aid st with
      | error e =>
        rw [processStatements_cons_err cd fa aid seen st rest e h hm] at hmem
        simp at hmem
        subst hmem
        exact h
      | ok p =>
        rw [processStatements_cons_ok cd fa aid seen st rest p h hm] at hmem
        rcases List.mem_cons.mp hmem with rfl | hmem
        · exact h
        · have := ih (st.id :: seen) st_ hmem
          exact fun hc => this (List.mem_cons_of_mem _ hc)

theorem processStatements_processed_nodup (cd : List MonoAccount) (fa : List FireflyAccount)
    (aid : String) (page : List StatementItem) : ∀ seen : List String,
    ((processStatements cd fa aid seen page).processed.map (fun st => st.id)).Nodup := by
  induction page with
  | nil => intro seen; simp [processStatements_nil]
  | cons st rest ih =>
    intro seen
    by_cases h : st.id ∈ seen
    · rw [processStatements_cons_mem cd fa aid seen st rest h]
      exact ih seen
    · cases hm : monobankToFireflyTransaction cd fa aid st with
      | error e => simp [processStatements_cons_err cd fa aid seen st rest e h hm]
      | ok p =>
        rw [processStatements_cons_ok cd fa aid seen st rest p h hm]
        simp only [List.map_cons]
        refine List.nodup_cons.mpr ⟨fun hmem => ?_, ih (st.id :: seen)⟩
        rcases List.mem_map.mp hmem with ⟨x, hx, hxid⟩
        have := processStatements_processed_not_mem cd fa aid rest (st.id :: seen) x hx
        exact this (hxid ▸ List.mem_cons_self _ _)

theorem processStatements_encountered_mem_seen (cd : List MonoAccount)
    (fa : List FireflyAccount) (aid : String) (page : List StatementItem) :
    ∀ seen : List String, ∀ st_ ∈ (processStatements cd fa aid seen page).encountered,
    st_.id ∈ (processStatements cd fa aid seen page).seen := by
  induction page with
  | nil => intro seen st_ hmem; simp [processStatements_nil] at hmem
  | cons st rest ih =>
    intro seen st_ hmem
    by_cases h : st.id ∈ seen
    · rw [processStatements_cons_mem cd fa aid seen st rest h] at hmem ⊢
      rcases List.mem_cons.mp hmem with rfl | hmem
      · exact processStatements_seen_mono cd fa aid rest seen h
      · exact ih seen st_ hmem
    · cases hm : monobankToFireflyTransaction cd fa aid st with
      | error e =>
        rw [processStatements_cons_err cd fa aid seen st rest e h hm] at hmem ⊢
        simp at hmem
        subst hmem
        exact List.mem_cons_self _ _
      | ok p =>
        rw [processStatements_cons_ok cd fa aid seen st rest p h hm] at hmem ⊢
        rcases List.mem_cons.mp hmem with rfl | hmem
        · exact processStatements_seen_mono cd fa aid rest (st_.id :: seen)
            (List.mem_cons_self _ _)
        · exact ih (st.id :: seen) st_ hmem

theorem statementWalk_zero (cd : List MonoAccount) (fa : List FireflyAccount)
    (history : List StatementItem) (aid : String) (fromT : Int) (toT : Option Int)
    (seen : List String) :
    statementWalk cd fa history aid fromT toT seen 0 = ⟨seen, [], [], [], 0, true⟩ := rfl

theorem statementWalk_succ_abort (cd : List MonoAccount) (fa : List FireflyAccount)
    (history : List StatementItem) (aid : String) (fromT : Int) (toT : Option Int)
    (seen : List String) (fuel : Nat)
    (hab : (processStatements cd fa aid seen (getMonobankStatements history fromT toT)).aborted
      = true) :
    statementWalk cd fa history aid fromT toT seen (fuel + 1)
      = ⟨(processStatements cd fa aid seen (getMonobankStatements history fromT toT)).seen,
         (processStatements cd fa aid seen (getMonobankStatements history fromT toT)).encountered,
         (processStatements cd fa aid seen (getMonobankStatements history fromT toT)).processed,
         (processStatements cd fa aid seen (getMonobankStatements history fromT toT)).calls,
         1, true⟩ := by
  simp [statementWalk, hab]

theorem statementWalk_succ_short (cd : List MonoAccount) (fa : List FireflyAccount)
    (history : List StatementItem) (aid : String) (fromT : Int) (toT : Option Int)
    (seen : List String) (fuel : Nat)
    (hab : (processStatements cd fa aid seen (getMonobankStatements history fromT toT)).aborted
      = false)
    (hlen : (getMonobankStatements history fromT toT).length < 500) :
    statementWalk cd fa history aid fromT toT seen (fuel + 1)
      = ⟨(processStatements cd fa aid seen (getMonobankStatements history fromT toT)).seen,
         (processStatements cd fa aid seen (getMonobankStatements history fromT toT)).encountered,
         (processStatements cd fa aid seen (getMonobankStatements history fromT toT)).processed,
         (processStatements cd fa aid seen (getMonobankStatements history fromT toT)).calls,
         1, false⟩ := by
  simp [statementWalk, hab, hlen]

theorem statementWalk_succ_nolast (cd : List MonoAccount) (fa : List FireflyAccount)
    (history : List StatementItem) (aid : String) (fromT : Int) (toT : Option Int)
    (seen : List String) (fuel : Nat)
    (hab : (processStatements cd fa aid seen (getMonobankStatements history fromT toT)).aborted
      = false)
    (hlen : ¬ (getMonobankStatements history fromT toT).length < 500)
    (hlast : (getMonobankStatements history fromT toT).getLast? = none) :
    statementWalk cd fa history aid fromT toT seen (fuel + 1)
      = ⟨(processStatements cd fa aid seen (getMonobankStatements history fromT toT)).seen,
         (processStatements cd fa aid seen (getMonobankStatements history fromT toT)).encountered,
         (processStatements cd fa aid seen (getMonobankStatements history fromT toT)).processed,
         (processStatements cd fa aid seen (getMonobankStatements history fromT toT)).calls,
         1, false⟩ := by
  simp [statementWalk, hab, hlen, hlast]

theorem statementWalk_succ_full (cd : List MonoAccount) (fa : List FireflyAccount)
    (history : List StatementItem) (aid : String) (fromT : Int) (toT : Option Int)
    (seen : List String) (fuel : Nat) (last : StatementItem)
    (hab : (processStatements cd fa aid seen (getMonobankStatements history fromT toT)).aborted
      = false)
    (hlen : ¬ (getMonobankStatements history fromT toT).length < 500)
    (hlast : (getMonobankStatements history fromT toT).getLast? = some last) :
    statementWalk cd fa history aid fromT toT seen (fuel + 1)
      = ⟨(statementWalk cd fa history aid fromT (some last.time)
            (processStatements cd fa aid seen (getMonobankStatements history fromT toT)).seen
            fuel).seen,
         (processStatements cd fa aid seen (getMonobankStatements history fromT toT)).encountered
           ++ (statementWalk cd fa history aid fromT (some last.time)
            (processStatements cd fa aid seen (getMonobankStatements history fromT toT)).seen
            fuel).encountered,
         (processStatements cd fa aid seen (getMonobankStatements history fromT toT)).processed
           ++ (statementWalk cd fa history aid fromT (some last.time)
            (processStatements cd fa aid seen (getMonobankStatements history fromT toT)).seen
            fuel).processed,
         (processStatements cd fa aid seen (getMonobankStatements history fromT toT)).calls
           ++ (statementWalk cd fa history aid fromT (some last.time)
            (processStatements cd fa aid seen (getMonobankStatements history fromT toT)).seen
            fuel).calls,
         (statementWalk cd fa history aid fromT (some last.time)
            (processStatements cd fa aid seen (getMonobankStatements history fromT toT)).seen
            fuel).fetches + 1,
         (statementWalk cd fa history aid fromT (some last.time)
            (processStatements cd fa aid seen (getMonobankStatements history fromT toT)).seen
            fuel).aborted⟩ := by
  simp [statementWalk, hab, hlen, hlast]

theorem statementWalk_seen_eq (cd : List MonoAccount) (fa : List FireflyAccount)
    (history : List StatementItem) (aid : String) (fromT : Int) :
    ∀ (fuel : Nat) (toT : Option Int) (seen : List String),
    (statementWalk cd fa history aid fromT toT seen fuel).seen
      = ((statementWalk cd fa history aid fromT toT seen fuel).processed.map
          (fun st => st.id)).reverse ++ seen := by
  intro fuel
  induction fuel with
  | zero => intro toT seen; simp [statementWalk_zero]
  | succ n ih =>
    intro toT seen
    cases hab : (processStatements cd fa aid seen (getMonobankStatements history fromT toT)).aborted with
    | true =>
      rw [statementWalk_succ_abort cd fa history aid fromT toT seen n hab]
      exact processStatements_seen_eq cd fa aid _ seen
    | false =>
      by_cases hlen : (getMonobankStatements history fromT toT).length < 500
      · rw [statementWalk_succ_short cd fa history aid fromT toT seen n hab hlen]
        exact processStatements_seen_eq cd fa aid _ seen
      · cases hlast : (getMonobankStatements history fromT toT).getLast? with
        | none =>
          rw [statementWalk_succ_nolast cd fa history aid fromT toT seen n hab hlen hlast]
          exact processStatements_seen_eq cd fa aid _ seen
        | some last =>
          rw [statementWalk_succ_full cd fa history aid fromT toT seen n last hab hlen hlast]
          simp only [List.map_append, List.reverse_append]
          rw [ih (some last.time) _, processStatements_seen_eq cd fa aid _ seen]
          simp [List.append_assoc]

theorem statementWalk_seen_mono (cd : List MonoAccount) (fa : List FireflyAccount)
    (history : List StatementItem) (aid : String) (fromT : Int) (fuel : Nat)
    (toT : Option Int) (seen : List String) {s : String} (h : s ∈ seen) :
    s ∈ (statementWalk cd fa history aid fromT toT seen fuel).seen := by
  rw [statementWalk_seen_eq]
  exact List.mem_append_right _ h

theorem statementWalk_processed_not_mem (cd : List MonoAccount) (fa : List FireflyAccount)
    (history : List StatementItem) (aid : String) (fromT : Int) :
    ∀ (fuel : Nat) (toT : Option Int) (seen : List String),
    ∀ st_ ∈ (statementWalk cd fa history aid fromT toT seen fuel).processed, st_.id ∉ seen := by
  intro fuel
  induction fuel with
  | zero => intro toT seen st_ hmem; simp [statementWalk_zero] at hmem
  | succ n ih =>
    intro toT seen st_ hmem
    cases hab : (processStatements cd fa aid seen (getMonobankStatements history fromT toT)).aborted with
    | true =>
      rw [statementWalk_succ_abort cd fa history aid fromT toT seen n hab] at hmem
      exact processStatements_processed_not_mem cd fa aid _ seen st_ hmem
    | false =>
      by_cases hlen : (getMonobankStatements history fromT toT).length < 500
      · rw [statementWalk_succ_short cd fa history aid fromT toT seen n hab hlen] at hmem
        exact processStatements_processed_not_mem cd fa aid _ seen st_ hmem
      · cases hlast : (getMonobankStatements history fromT toT).getLast? with
        | none =>
          rw [statementWalk_succ_nolast cd fa history aid fromT toT seen n hab hlen hlast] at hmem
          exact processStatements_processed_not_mem cd fa aid _ seen st_ hmem
        | some last =>
          rw [statementWalk_succ_full cd fa history aid fromT toT seen n last hab hlen hlast]
            at hmem
          rcases List.mem_append.mp hmem with hmem | hmem
          · exact processStatements_processed_not_mem cd fa aid _ seen st_ hmem
          · intro hc
            exact ih (some last.time) _ st_ hmem
              (processStatements_seen_mono cd fa aid _ seen hc)

theorem statementWalk_processed_nodup (cd : List MonoAccount) (fa : List FireflyAccount)
    (history : List StatementItem) (aid : String) (fromT : Int) :
    ∀ (fuel : Nat) (toT : Option Int) (seen : List String),
    ((statementWalk cd fa history aid fromT toT seen fuel).processed.map
      (fun st => st.id)).Nodup := by
  intro fuel
  induction fuel with
  | zero => intro toT seen; simp [statementWalk_zero]
  | succ n ih =>
    intro toT seen
    cases hab : (processStatements cd fa aid seen (getMonobankStatements history fromT toT)).aborted with
    | true =>
      rw [statementWalk_succ_abort cd fa history aid fromT toT seen n hab]
      exact processStatements_processed_nodup cd fa aid _ seen
    | false =>
      by_cases hlen : (getMonobankStatements history fromT toT).length < 500
      · rw [statementWalk_succ_short cd fa history aid fromT toT seen n hab hlen]
        exact processStatements_processed_nodup cd fa aid _ seen
      · cases hlast : (getMonobankStatements history fromT toT).getLast? with
        | none =>
          rw [statementWalk_succ_nolast cd fa history aid fromT toT seen n hab hlen hlast]
          exact processStatements_processed_nodup cd fa aid _ seen
        | some last =>
          rw [statementWalk_succ_full cd fa history aid fromT toT seen n last hab hlen hlast]
          simp only [List.map_append]
          rw [List.nodup_append]
          refine ⟨processStatements_processed_nodup cd fa aid _ seen, ih (some last.time) _, ?_⟩
          intro x hx hx2
          rcases List.mem_map.mp hx with ⟨a, ha, rfl⟩
          rcases List.mem_map.mp hx2 with ⟨b, hb, hba⟩
          have hnot := statementWalk_processed_not_mem cd fa history aid fromT n
            (some last.time) _ b hb
          apply hnot
          rw [processStatements_seen_eq]
          apply List.mem_append_left
          rw [List.mem_reverse, hba]
          exact List.mem_map.mpr ⟨a, ha, rfl⟩

theorem statementWalk_encountered_mem_seen (cd : List MonoAccount) (fa : List FireflyAccount)
    (history : List StatementItem) (aid : String) (fromT : Int) :
    ∀ (fuel : Nat) (toT : Option Int) (seen : List String),
    ∀ st_ ∈ (statementWalk cd fa history aid fromT toT seen fuel).encountered,
    st_.id ∈ (statementWalk cd fa history aid fromT toT seen fuel).seen := by
  intro fuel
  induction fuel with
  | zero => intro toT seen st_ hmem; simp [statementWalk_zero] at hmem
  | succ n ih =>
    intro toT seen st_ hmem
    cases hab : (processStatements cd fa aid seen (getMonobankStatements history fromT toT)).aborted with
    | true =>
      rw [statementWalk_succ_abort cd fa history aid fromT toT seen n hab] at hmem ⊢
      exact processStatements_encountered_mem_seen cd fa aid _ seen st_ hmem
    | false =>
      by_cases hlen : (getMonobankStatements history fromT toT).length < 500
      · rw [statementWalk_succ_short cd fa history aid fromT toT seen n hab hlen] at hmem ⊢
        exact processStatements_encountered_mem_seen cd fa aid _ seen st_ hmem
      · cases hlast : (getMonobankStatements history fromT toT).getLast? with
        | none =>
          rw [statementWalk_succ_nolast cd fa history aid fromT toT seen n hab hlen hlast]
            at hmem ⊢
          exact processStatements_encountered_mem_seen cd fa aid _ seen st_ hmem
        | some last =>
          rw [statementWalk_succ_full cd fa history aid fromT toT seen n last hab hlen hlast]
            at hmem ⊢
          rcases List.mem_append.mp hmem with hmem | hmem
          · exact statementWalk_seen_mono cd fa history aid fromT n (some last.time) _
              (processStatements_encountered_mem_seen cd fa aid _ seen st_ hmem)
          · exact ih (some last.time) _ st_ hmem

theorem backfillAll_nil (cd : List MonoAccount) (fa : List FireflyAccount)
    (bank : String → List StatementItem) (fromT : Int) (fuel : Nat) (seen : List String) :
    backfillAll cd fa bank fromT fuel [] seen = ⟨seen, [], [], [], 0, false⟩ := rfl

theorem backfillAll_cons_abort (cd : List MonoAccount) (fa : List FireflyAccount)
    (bank : String → List StatementItem) (fromT : Int) (fuel : Nat) (a : MonoAccount)
    (rest : List MonoAccount) (seen : List String)
    (h : (statementWalk cd fa (bank a.id) a.id fromT none seen fuel).aborted = true) :
    backfillAll cd fa bank fromT fuel (a :: rest) seen
      = statementWalk cd fa (bank a.id) a.id fromT none seen fuel := by
  simp [backfillAll, h]

theorem backfillAll_cons_ok (cd : List MonoAccount) (fa : List FireflyAccount)
    (bank : String → List StatementItem) (fromT : Int) (fuel : Nat) (a : MonoAccount)
    (rest : List MonoAccount) (seen : List String)
    (h : (statementWalk cd fa (bank a.id) a.id fromT none seen fuel).aborted = false) :
    backfillAll cd fa bank fromT fuel (a :: rest) seen
      = ⟨(backfillAll cd fa bank fromT fuel rest
            (statementWalk cd fa (bank a.id) a.id fromT none seen fuel).seen).seen,
         (statementWalk cd fa (bank a.id) a.id fromT none seen fuel).encountered
           ++ (backfillAll cd fa bank fromT fuel rest
            (statementWalk cd fa (bank a.id) a.id fromT none seen fuel).seen).encountered,
         (statementWalk cd fa (bank a.id) a.id fromT none seen fuel).processed
           ++ (backfillAll cd fa bank fromT fuel rest
            (statementWalk cd fa (bank a.id) a.id fromT none seen fuel).seen).processed,
         (statementWalk cd fa (bank a.id) a.id fromT none seen fuel).calls
           ++ (backfillAll cd fa bank fromT fuel rest
            (statementWalk cd fa (bank a.id) a.id fromT none seen fuel).seen).calls,
         (statementWalk cd fa (bank a.id) a.id fromT none seen fuel).fetches
           + (backfillAll cd fa bank fromT fuel rest
            (statementWalk cd fa (bank a.id) a.id fromT none seen fuel).seen).fetches,
         (backfillAll cd fa bank fromT fuel rest
            (statementWalk cd fa (bank a.id) a.id fromT none seen fuel).seen).aborted⟩ := by
  simp [backfillAll, h]

theorem backfillAll_seen_eq (cd : List MonoAccount) (fa : List FireflyAccount)
    (bank : String → List StatementItem) (fromT : Int) (fuel : Nat) :
    ∀ (accounts : List MonoAccount) (seen : List String),
    (backfillAll cd fa bank fromT fuel accounts seen).seen
      = ((backfillAll cd fa bank fromT fuel accounts seen).processed.map
          (fun st => st.id)).reverse ++ seen := by
  intro accounts
  induction accounts with
  | nil => intro seen; simp [backfillAll_nil]
  | cons a rest ih =>
    intro seen
    cases hab : (statementWalk cd fa (bank a.id) a.id fromT none seen fuel).aborted with
    | true =>
      rw [backfillAll_cons_abort cd fa bank fromT fuel a rest seen hab]
      exact statementWalk_seen_eq cd fa (bank a.id) a.id fromT fuel none seen
    | false =>
      rw [backfillAll_cons_ok cd fa bank fromT fuel a rest seen hab]
      simp only [List.map_append, List.reverse_append]
      rw [ih _, statementWalk_seen_eq cd fa (bank a.id) a.id fromT fuel none seen]
      simp [List.append_assoc]

theorem backfillAll_seen_mono (cd : List MonoAccount) (fa : List FireflyAccount)
    (bank : String → List StatementItem) (fromT : Int) (fuel : Nat)
    (accounts : List MonoAccount) (seen : List String) {s : String} (h : s ∈ seen) :
    s ∈ (backfillAll cd fa bank fromT fuel accounts seen).seen := by
  rw [backfillAll_seen_eq]
  exact List.mem_append_right _ h

theorem backfillAll_processed_not_mem (cd : List MonoAccount) (fa : List FireflyAccount)
    (bank : String → List StatementItem) (fromT : Int) (fuel : Nat) :
    ∀ (accounts : List MonoAccount) (seen : List String),
    ∀ st_ ∈ (backfillAll cd fa bank fromT fuel accounts seen).processed, st_.id ∉ seen := by
  intro accounts
  induction accounts with
  | nil => intro seen st_ hmem; simp [backfillAll_nil] at hmem
  | cons a rest ih =>
    intro seen st_ hmem
    cases hab : (statementWalk cd fa (bank a.id) a.id fromT none seen fuel).aborted with
    | true =>
      rw [backfillAll_cons_abort cd fa bank fromT fuel a rest seen hab] at hmem
      exact statementWalk_processed_not_mem cd fa (bank a.id) a.id fromT fuel none seen st_ hmem
    | false =>
      rw [backfillAll_cons_ok cd fa bank fromT fuel a rest seen hab] at hmem
      rcases List.mem_append.mp hmem with hmem | hmem
      · exact statementWalk_processed_not_mem cd fa (bank a.id) a.id fromT fuel none seen st_ hmem
      · intro hc
        exact ih _ st_ hmem
          (statementWalk_seen_mono cd fa (bank a.id) a.id fromT fuel none seen hc)

theorem backfillAll_processed_nodup (cd : List MonoAccount) (fa : List FireflyAccount)
    (bank : String → List StatementItem) (fromT : Int) (fuel : Nat) :
    ∀ (accounts : List MonoAccount) (seen : List String),
    ((backfillAll cd fa bank fromT fuel accounts seen).processed.map
      (fun st => st.id)).Nodup := by
  intro accounts
  induction accounts with
  | nil => intro seen; simp [backfillAll_nil]
  | cons a rest ih =>
    intro seen
    cases hab : (statementWalk cd fa (bank a.id) a.id fromT none seen fuel).aborted with
    | true =>
      rw [backfillAll_cons_abort cd fa bank fromT fuel a rest seen hab]
      exact statementWalk_processed_nodup cd fa (bank a.id) a.id fromT fuel none seen
    | false =>
      rw [backfillAll_cons_ok cd fa bank fromT fuel a rest seen hab]
      simp only [List.map_append]
      rw [List.nodup_append]
      refine ⟨statementWalk_processed_nodup cd fa (bank a.id) a.id fromT fuel none seen,
        ih _, ?_⟩
      intro x hx hx2
      rcases List.mem_map.mp hx with ⟨p, hp, rfl⟩
      rcases List.mem_map.mp hx2 with ⟨b, hb, hba⟩
      have hnot := backfillAll_processed_not_mem cd fa bank fromT fuel rest _ b hb
      apply hnot
      rw [statementWalk_seen_eq]
      apply List.mem_append_left
      rw [List.mem_reverse, hba]
      exact List.mem_map.mpr ⟨p, hp, rfl⟩

theorem backfillAll_encountered_mem_seen (cd : List MonoAccount) (fa : List FireflyAccount)
    (bank : String → List StatementItem) (fromT : Int) (fuel : Nat) :
    ∀ (accounts : List MonoAccount) (seen : List String),
    ∀ st_ ∈ (backfillAll cd fa bank fromT fuel accounts seen).encountered,
    st_.id ∈ (backfillAll cd fa bank fromT fuel accounts seen).seen := by
  intro accounts
  induction accounts with
  | nil => intro seen st_ hmem; simp [backfillAll_nil] at hmem
  | cons a rest ih =>
    intro seen st_ hmem
    cases hab : (statementWalk cd fa (bank a.id) a.id fromT none seen fuel).aborted with
    | true =>
      rw [backfillAll_cons_abort cd fa bank fromT fuel a rest seen hab] at hmem ⊢
      exact statementWalk_encountered_mem_seen cd fa (bank a.id) a.id fromT fuel none seen st_ hmem
    | false =>
      rw [backfillAll_cons_ok cd fa bank fromT fuel a rest seen hab] at hmem ⊢
      rcases List.mem_append.mp hmem with hmem | hmem
      · exact backfillAll_seen_mono cd fa bank fromT fuel rest _
          (statementWalk_encountered_mem_seen cd fa (bank a.id) a.id fromT fuel none seen st_ hmem)
      · exact ih _ st_ hmem

theorem backfillAll_seen_length (cd : List MonoAccount) (fa : List FireflyAccount)
    (bank : String → List StatementItem) (fromT : Int) (fuel : Nat)
    (accounts : List MonoAccount) (seen : List String) :
    (backfillAll cd fa bank fromT fuel accounts seen).seen.length
      = (backfillAll cd fa bank fromT fuel accounts seen).processed.length + seen.length := by
  rw [backfillAll_seen_eq]
  simp

/-! ### Concrete fixtures used by witnesses and counterexamples -/

/-- A monobank account fixture. -/
def acctA : MonoAccount :=
  { id := "accA", currencyCode := 980, balance := 9500, iban := "UA11" }

/-- A Firefly account fixture whose IBAN matches `acctA`. -/
def ffA : FireflyAccount := { id := 7, iban := some "UA11", current_balance := 100 }

/-- A withdrawal statement entry on `acctA` (5.00 UAH out). -/
def stA : StatementItem :=
  { id := "sA", time := 1000, description := "coffee", amount := -500,
    balance := 9500, comment := none, currencyCode := 980 }

/-- A deposit statement entry on `acctA` (7.00 UAH in). -/
def stB : StatementItem :=
  { id := "sB", time := 999, description := "salary", amount := 700,
    balance := 10000, comment := none, currencyCode := 980 }

/-- The payload `monobankToFireflyTransaction` produces for `stA`. -/
def payloadA : Payload :=
  { type := "withdrawal", date := 1000, currency_code := "UAH",
    amount := (((-500 : Int).natAbs : ℚ)) / 100, description := "coffee", notes := none,
    destination_id := none, source_id := some 7, external_id := "sA",
    external_url := PROVENANCE_MARKER, tags := [TRANSACTION_TAG] }

/-- The payload `monobankToFireflyTransaction` produces for `stB`. -/
def payloadB : Payload :=
  { type := "deposit", date := 999, currency_code := "UAH",
    amount := (((700 : Int).natAbs : ℚ)) / 100, description := "salary", notes := none,
    destination_id := some 7, source_id := none, external_id := "sB",
    external_url := PROVENANCE_MARKER, tags := [TRANSACTION_TAG] }

/-- A one-account bank environment: `acctA` has history `[stA, stB]`. -/
def bankA : String → List StatementItem :=
  fun aid => if aid = "accA" then [stA, stB] else []

/-- The length of a `filterMap` counts the inputs on which the function
succeeds. -/
theorem length_filterMap_eq_countP {α β : Type} (f : α → Option β) (l : List α) :
    (l.filterMap f).length = l.countP (fun a => (f a).isSome) := by
  induction l with
  | nil => rfl
  | cons a rest ih => cases h : f a <;> simp [List.filterMap_cons, h, List.countP_cons, ih]

/-! ### Claim theorems -/

/-- C9: mapping is deterministic and side-effect-free — two calls of the
mapper on the same (bank account id, statement entry) pair, with the
account directories unchanged between the calls, yield identical results
(hence byte-identical payloads). -/
theorem C9_deterministic (cd cd' : List MonoAccount) (fa fa' : List FireflyAccount)
    (accountId : String) (st : StatementItem) (hcd : cd = cd') (hfa : fa = fa') :
    monobankToFireflyTransaction cd fa accountId st
      = monobankToFireflyTransaction cd' fa' accountId st := by
  subst hcd
  subst hfa
  rfl

/-- Witness for C9 at a concrete input. -/
theorem C9_witness :
    [acctA] = [acctA] ∧ monobankToFireflyTransaction [acctA] [ffA] "accA" stA
      = monobankToFireflyTransaction [acctA] [ffA] "accA" stA :=
  ⟨rfl, C9_deterministic [acctA] [acctA] [ffA] [ffA] "accA" stA rfl rfl⟩

/-- C7: every successfully mapped payload has `type` deposit iff the
amount is positive and withdrawal otherwise, exactly one of
`destination_id` (deposit) / `source_id` (withdrawal) populated with the
resolved Firefly account id, `external_id` equal to the entry id,
`external_url` equal to the fixed provenance marker, and the singleton
provenance tag list. -/
theorem C7_payload_shape (cd : List MonoAccount) (fa : List FireflyAccount)
    (accountId : String) (st : StatementItem) (p : Payload)
    (h : monobankToFireflyTransaction cd fa accountId st = .ok (some p)) :
    (p.type = if st.amount > 0 then "deposit" else "withdrawal")
    ∧ ((p.destination_id.isSome ∧ p.source_id = none)
        ∨ (p.source_id.isSome ∧ p.destination_id = none))
    ∧ (∃ ma ff, cd.find? (fun a => a.id == accountId) = some ma
         ∧ fa.find? (fun a => a.iban == some ma.iban) = some ff
         ∧ (if st.amount > 0 then p.destination_id = some ff.id
            else p.source_id = some ff.id))
    ∧ p.external_id = st.id ∧ p.external_url = PROVENANCE_MARKER
    ∧ p.tags = [TRANSACTION_TAG] := by
  unfold monobankToFireflyTransaction at h
  cases hma : cd.find? (fun a => a.id == accountId) with
  | none => simp [hma] at h
  | some ma =>
    simp only [hma] at h
    cases hff : fa.find? (fun a => a.iban == some ma.iban) with
    | none => simp [hff] at h
    | some ff =>
      simp only [hff] at h
      cases hcc : numericToAlpha st.currencyCode with
      | none => simp [hcc] at h
      | some code =>
        simp only [hcc, Except.ok.injEq, Option.some.injEq] at h
        subst h
        refine ⟨rfl, ?_, ⟨ma, ff, rfl, hff, ?_⟩, rfl, rfl, rfl⟩
        · by_cases hpos : st.amount > 0 <;> simp [hpos]
        · by_cases hpos : st.amount > 0 <;> simp [hpos]

/-- Witness for C7 at a concrete deposit input. -/
theorem C7_witness :
    monobankToFireflyTransaction [acctA] [ffA] "accA" stB = .ok (some payloadB)
    ∧ ((payloadB.type = if stB.amount > 0 then "deposit" else "withdrawal")
      ∧ ((payloadB.destination_id.isSome ∧ payloadB.source_id = none)
          ∨ (payloadB.source_id.isSome ∧ payloadB.destination_id = none))
      ∧ (∃ ma ff, [acctA].find? (fun a => a.id == "accA") = some ma
           ∧ [ffA].find? (fun a => a.iban == some ma.iban) = some ff
           ∧ (if stB.amount > 0 then payloadB.destination_id = some ff.id
              else payloadB.source_id = some ff.id))
      ∧ payloadB.external_id = stB.id ∧ payloadB.external_url = PROVENANCE_MARKER
      ∧ payloadB.tags = [TRANSACTION_TAG]) :=
  ⟨rfl, C7_payload_shape [acctA] [ffA] "accA" stB payloadB rfl⟩

/-- C2 (code-bug exhibit): when the entry's bank account is not in the
client directory the mapper does return the Skip outcome (`null`,
modelled `.ok none`) — but the webhook handler still invokes
`createFireflyTransaction` with that null result (the source has no null
check between `monobankToFireflyTransaction` and
`createFireflyTransaction`), so Skip does reach the Ledger Writer. -/
theorem C2_skip_reaches_writer :
    monobankToFireflyTransaction [acctA] [ffA] "nope" stA = .ok none
    ∧ liveCreationCalls [acctA] [ffA] [("nope", stA)] = [none] :=
  ⟨rfl, rfl⟩

/-- C1 (counterexample): one statement entry delivered twice through the
live webhook handler causes two `createFireflyTransaction` calls carrying
the same `external_id`, refuting "an entry delivered any number of times
never causes more than one ledger transaction creation call". -/
theorem C1_counterexample :
    liveCreationCalls [acctA] [ffA] [("accA", stA), ("accA", stA)]
      = [some payloadA, some payloadA]
    ∧ payloadA.external_id = stA.id :=
  ⟨rfl, rfl⟩

/-- C1 (amended): within one Backfill pass each entry id causes at most
one creation call (the processed entries have pairwise-distinct ids),
while Live processing deduplicates nothing: it makes exactly one creation
call per delivered event whose mapping does not throw. -/
theorem C1_amended_dedup :
    (∀ (cd : List MonoAccount) (fa : List FireflyAccount)
       (bank : String → List StatementItem) (fromT : Int) (fuel : Nat)
       (accounts : List MonoAccount) (seen : List String),
       ((backfillAll cd fa bank fromT fuel accounts seen).processed.map
         (fun st => st.id)).Nodup)
    ∧ (∀ (cd : List MonoAccount) (fa : List FireflyAccount)
         (events : List (String × StatementItem)),
       (liveCreationCalls cd fa events).length
         = events.countP
             (fun ev => ((monobankToFireflyTransaction cd fa ev.1 ev.2).toOption).isSome)) :=
  ⟨fun cd fa bank fromT fuel accounts seen =>
      backfillAll_processed_nodup cd fa bank fromT fuel accounts seen,
   fun cd fa events => by
     unfold liveCreationCalls
     exact length_filterMap_eq_countP
       (fun ev => (monobankToFireflyTransaction cd fa ev.1 ev.2).toOption) events⟩

/-- C4: during one Backfill pass, every id the walk encounters ends up in
the ReconciliationState set, the set stays duplicate-free (each id is
inserted at most once — also when the mapping skips), and the entries that
get mapped and written have pairwise-distinct ids none of which were in
the set before the pass. -/
theorem C4_at_most_once (cd : List MonoAccount) (fa : List FireflyAccount)
    (bank : String → List StatementItem) (fromT : Int) (fuel : Nat)
    (accounts : List MonoAccount) (seen : List String) (hnd : seen.Nodup) :
    (backfillAll cd fa bank fromT fuel accounts seen).seen.Nodup
    ∧ (∀ st_ ∈ (backfillAll cd fa bank fromT fuel accounts seen).encountered,
        st_.id ∈ (backfillAll cd fa bank fromT fuel accounts seen).seen)
    ∧ ((backfillAll cd fa bank fromT fuel accounts seen).processed.map
        (fun st => st.id)).Nodup
    ∧ (∀ st_ ∈ (backfillAll cd fa bank fromT fuel accounts seen).processed,
        st_.id ∉ seen) := by
  refine ⟨?_, backfillAll_encountered_mem_seen cd fa bank fromT fuel accounts seen,
    backfillAll_processed_nodup cd fa bank fromT fuel accounts seen,
    backfillAll_processed_not_mem cd fa bank fromT fuel accounts seen⟩
  rw [backfillAll_seen_eq, List.nodup_append]
  refine ⟨List.nodup_reverse.mpr
    (backfillAll_processed_nodup cd fa bank fromT fuel accounts seen), hnd, ?_⟩
  intro x hx
  rw [List.mem_reverse] at hx
  rcases List.mem_map.mp hx with ⟨b, hb, rfl⟩
  exact backfillAll_processed_not_mem cd fa bank fromT fuel accounts seen b hb

/-- Witness for C4 at a concrete input (one account, two entries, the set
pre-seeded with the id of `stB`). -/
theorem C4_witness :
    (["sB"] : List String).Nodup
    ∧ ((backfillAll [acctA] [ffA] bankA 0 1 [acctA] ["sB"]).seen.Nodup
      ∧ (∀ st_ ∈ (backfillAll [acctA] [ffA] bankA 0 1 [acctA] ["sB"]).encountered,
          st_.id ∈ (backfillAll [acctA] [ffA] bankA 0 1 [acctA] ["sB"]).seen)
      ∧ ((backfillAll [acctA] [ffA] bankA 0 1 [acctA] ["sB"]).processed.map
          (fun st => st.id)).Nodup
      ∧ (∀ st_ ∈ (backfillAll [acctA] [ffA] bankA 0 1 [acctA] ["sB"]).processed,
          st_.id ∉ (["sB"] : List String))) :=
  ⟨List.nodup_singleton _, C4_at_most_once [acctA] [ffA] bankA 0 1 [acctA] ["sB"]
    (List.nodup_singleton _)⟩

/-- C10: the Backfill pass starts with the anchor's id already in the
ReconciliationState set, so the anchor entry is never mapped or written
during the pass, and the logged recovered count (set size minus one)
equals the number of entries actually written, excluding the anchor. -/
theorem C10_anchor_excluded (cd : List MonoAccount) (fa : List FireflyAccount)
    (bank : String → List StatementItem) (anchor : StatementItem) (fuel : Nat) :
    anchor.id ∉ ((recoverBackfill cd fa bank anchor fuel).processed.map (fun st => st.id))
    ∧ recoveredCount (recoverBackfill cd fa bank anchor fuel)
        = (recoverBackfill cd fa bank anchor fuel).processed.length := by
  constructor
  · intro hmem
    rcases List.mem_map.mp hmem with ⟨x, hx, hxid⟩
    have := backfillAll_processed_not_mem cd fa bank anchor.time fuel cd [anchor.id] x hx
    exact this (by simp [hxid])
  · unfold recoveredCount recoverBackfill
    rw [backfillAll_seen_length]
    simp

/-! ### Pagination of the statement walk over a sorted history -/

/-- Number of statement fetches the page walk makes for a range currently
holding `m` entries: one short page ends it, a full page (500) re-fetches
from the oldest entry inclusive, re-reading one entry and advancing by
499. -/
def fetchCount (m : Nat) : Nat :=
  if h : m < 500 then 1 else 1 + fetchCount (m - 499)
termination_by m
decreasing_by omega

theorem fetchCount_of_lt (m : Nat) (h : m < 500) : fetchCount m = 1 := by
  rw [fetchCount]
  simp [h]

theorem fetchCount_of_ge (m : Nat) (h : ¬ m < 500) :
    fetchCount m = 1 + fetchCount (m - 499) := by
  rw [fetchCount]
  simp [h]

/-- A Boolean filter that holds exactly from position `k` on selects the
`k`-drop of the list. -/
theorem filter_eq_drop_of_iff {α : Type} (p : α → Bool) :
    ∀ (l : List α) (k : Nat),
    (∀ (i : Nat) (hi : i < l.length), (p (l.get ⟨i, hi⟩) = true ↔ k ≤ i)) →
    l.filter p = l.drop k := by
  intro l
  induction l with
  | nil => intro k _; simp
  | cons x xs ih =>
    intro k hp
    cases k with
    | zero =>
      have hall : ∀ a ∈ x :: xs, p a = true := by
        intro a ha
        rcases List.mem_iff_get.mp ha with ⟨i, rfl⟩
        exact (hp i i.isLt).mpr (Nat.zero_le _)
      simp [List.filter_eq_self.mpr hall]
    | succ k =>
      cases hpx : p x with
      | true =>
        exfalso
        have := (hp 0 (by simp)).mp hpx
        omega
      | false =>
        have hstep : List.filter p (x :: xs) = List.filter p xs := by
          simp [List.filter_cons, hpx]
        rw [hstep, List.drop_succ_cons]
        apply ih k
        intro i hi
        have := hp (i + 1) (by simpa using Nat.succ_lt_succ hi)
        simpa using this

/-- With no upper bound and `fromT` below the whole history, a statement
fetch returns the newest 500 entries. -/
theorem getMonobankStatements_none (history : List StatementItem) (fromT : Int)
    (hfrom : ∀ e ∈ history, fromT ≤ e.time) :
    getMonobankStatements history fromT none = history.take 500 := by
  unfold getMonobankStatements
  congr 1
  apply List.filter_eq_self.mpr
  intro a ha
  simp [hfrom a ha]

/-- On a strictly newest-first history, bounding the fetch by the time of
the entry at position `k` returns the page starting at position `k`. -/
theorem getMonobankStatements_some (history : List StatementItem) (fromT : Int)
    (hsort : history.Pairwise (fun a b => b.time < a.time))
    (hfrom : ∀ e ∈ history, fromT ≤ e.time)
    (k : Nat) (hk : k < history.length) :
    getMonobankStatements history fromT (some ((history.get ⟨k, hk⟩).time))
      = (history.drop k).take 500 := by
  unfold getMonobankStatements
  congr 1
  apply filter_eq_drop_of_iff
  intro i hi
  constructor
  · intro hpi
    by_contra hik
    push_neg at hik
    have hlt := List.pairwise_iff_get.mp hsort ⟨i, hi⟩ ⟨k, hk⟩ (by exact hik)
    simp only [List.get_eq_getElem] at hlt
    simp at hpi
    omega
  · intro hki
    have h1 : fromT ≤ history[i].time := hfrom _ (List.getElem_mem hi)
    have h2 : history[i].time ≤ history[k].time := by
      rcases Nat.eq_or_lt_of_le hki with heq | hlt
      · subst heq
        exact le_refl _
      · have := List.pairwise_iff_get.mp hsort ⟨k, hk⟩ ⟨i, hi⟩ (by exact hlt)
        simp only [List.get_eq_getElem] at this
        omega
    simp [h1, h2]

/-- Under globally distinct ids, an entry of the `q`-drop does not carry an
id of the `q`-prefix. -/
theorem mem_drop_id_not_mem_take (history : List StatementItem)
    (hnd : (history.map (fun st => st.id)).Nodup) (q : Nat) {st : StatementItem}
    (hmem : st ∈ history.drop q) :
    st.id ∉ (history.take q).map (fun st => st.id) := by
  intro hc
  have hsplit : history.map (fun st => st.id)
      = (history.take q).map (fun st => st.id)
        ++ (history.drop q).map (fun st => st.id) := by
    rw [← List.map_append, List.take_append_drop]
  rw [hsplit, List.nodup_append] at hnd
  exact hnd.2.2 hc (List.mem_map.mpr ⟨st, hmem, rfl⟩)

/-- Processing a page of unseen, id-distinct, mappable entries processes
all of them and does not abort. -/
theorem processStatements_fresh (cd : List MonoAccount) (fa : List FireflyAccount)
    (aid : String) : ∀ (page : List StatementItem) (seen : List String),
    (∀ st ∈ page, st.id ∉ seen) → ((page.map (fun st => st.id)).Nodup) →
    (∀ st ∈ page, ∃ p, monobankToFireflyTransaction cd fa aid st = .ok p) →
    (processStatements cd fa aid seen page).processed = page
    ∧ (processStatements cd fa aid seen page).aborted = false := by
  intro page
  induction page with
  | nil => intro seen _ _ _; simp [processStatements_nil]
  | cons st rest ih =>
    intro seen hfresh hnd hok
    rcases hok st (List.mem_cons_self _ _) with ⟨p, hp⟩
    rw [processStatements_cons_ok cd fa aid seen st rest p
      (hfresh st (List.mem_cons_self _ _)) hp]
    have hnd' : (∀ x ∈ rest, ¬ x.id = st.id) ∧ (rest.map (fun st => st.id)).Nodup := by
      simpa using hnd
    have h1 : ∀ x ∈ rest, x.id ∉ st.id :: seen := by
      intro x hx hc
      rcases List.mem_cons.mp hc with hc1 | hc2
      · exact hnd'.1 x hx hc1
      · exact hfresh x (List.mem_cons_of_mem _ hx) hc2
    have h3 : ∀ x ∈ rest, ∃ p, monobankToFireflyTransaction cd fa aid x = .ok p :=
      fun x hx => hok x (List.mem_cons_of_mem _ hx)
    have hrest := ih (st.id :: seen) h1 hnd'.2 h3
    simp [hrest.1, hrest.2]

/-- The page walk over a strictly newest-first history of id-distinct,
mappable entries: starting at position `q` with the ids up to position
`q + b` already seen (`b ≤ 1`: the only possible overlap is the re-fetched
boundary entry), the walk processes exactly the entries from position
`q + b` on, in `fetchCount (length - q)` fetches, without aborting. -/
theorem statementWalk_sorted (cd : List MonoAccount) (fa : List FireflyAccount)
    (history : List StatementItem) (aid : String) (fromT : Int)
    (hsort : history.Pairwise (fun a b => b.time < a.time))
    (hfrom : ∀ e ∈ history, fromT ≤ e.time)
    (hnd : (history.map (fun st => st.id)).Nodup)
    (hok : ∀ e ∈ history, ∃ p, monobankToFireflyTransaction cd fa aid e = .ok p) :
    ∀ (fuel q b : Nat) (toT : Option Int) (seen : List String),
    b ≤ 1 → q + b ≤ history.length →
    getMonobankStatements history fromT toT = (history.drop q).take 500 →
    (∀ s, s ∈ seen ↔ s ∈ (history.take (q + b)).map (fun st => st.id)) →
    history.length < q + 500 + 499 * (fuel - 1) → 1 ≤ fuel →
    (statementWalk cd fa history aid fromT toT seen fuel).processed
        = history.drop (q + b)
    ∧ (statementWalk cd fa history aid fromT toT seen fuel).fetches
        = fetchCount (history.length - q)
    ∧ (statementWalk cd fa history aid fromT toT seen fuel).aborted = false := by
  intro fuel
  induction fuel with
  | zero => intro q b toT seen _ _ _ _ _ hfu; omega
  | succ n ih =>
    intro q b toT seen hb hqb hpage hseen hfuel _
    have hmain : (processStatements cd fa aid seen
          (getMonobankStatements history fromT toT)).processed
          = ((history.drop q).take 500).drop b
        ∧ (processStatements cd fa aid seen
          (getMonobankStatements history fromT toT)).aborted = false := by
      rw [hpage]
      rcases Nat.le_one_iff_eq_zero_or_eq_one.mp hb with rfl | rfl
      · have hsub : ((history.drop q).take 500).Sublist history :=
          (List.take_sublist _ _).trans (List.drop_sublist _ _)
        have hfresh : ∀ st ∈ (history.drop q).take 500, st.id ∉ seen := by
          intro st hst hc
          have h1 : st ∈ history.drop q := List.mem_of_mem_take hst
          have h2 := mem_drop_id_not_mem_take history hnd q h1
          rw [hseen st.id] at hc
          simp only [Nat.add_zero] at hc
          exact h2 hc
        have hndp : (((history.drop q).take 500).map (fun st => st.id)).Nodup :=
          List.Nodup.sublist (List.Sublist.map _ hsub) hnd
        have hokp : ∀ st ∈ (history.drop q).take 500,
            ∃ p, monobankToFireflyTransaction cd fa aid st = .ok p :=
          fun st hst => hok st (hsub.subset hst)
        have hfr := processStatements_fresh cd fa aid _ seen hfresh hndp hokp
        simpa using hfr
      · have hqlt : q < history.length := by omega
        have hdrop : history.drop q = history[q] :: history.drop (q + 1) :=
          List.drop_eq_getElem_cons hqlt
        have hpage2 : (history.drop q).take 500
            = history[q] :: ((history.drop (q + 1)).take 499) := by
          rw [hdrop, show (500 : Nat) = 499 + 1 from rfl, List.take_succ_cons]
        have hhead : history[q].id ∈ seen := by
          rw [hseen]
          have htake : history.take (q + 1) = history.take q ++ [history[q]] := by
            rw [List.take_succ, List.getElem?_eq_getElem hqlt]
            rfl
          rw [htake, List.map_append]
          exact List.mem_append_right _ (by simp)
        have hfresh1 : ∀ st ∈ (history.drop (q + 1)).take 499, st.id ∉ seen := by
          intro st hst hc
          have h1 : st ∈ history.drop (q + 1) := List.mem_of_mem_take hst
          have h2 := mem_drop_id_not_mem_take history hnd (q + 1) h1
          rw [hseen] at hc
          exact h2 hc
        have hsub1 : ((history.drop (q + 1)).take 499).Sublist history :=
          (List.take_sublist _ _).trans (List.drop_sublist _ _)
        have hfr := processStatements_fresh cd fa aid ((history.drop (q + 1)).take 499)
          seen hfresh1 (List.Nodup.sublist (List.Sublist.map _ hsub1) hnd)
          (fun st hst => hok st (hsub1.subset hst))
        rw [hpage2, processStatements_cons_mem cd fa aid seen _ _ hhead]
        exact ⟨by simpa using hfr.1, hfr.2⟩
    have hproc : (processStatements cd fa aid seen
        (getMonobankStatements history fromT toT)).processed
        = (history.drop (q + b)).take (500 - b) := by
      rw [hmain.1, List.drop_take, List.drop_drop]
    by_cases hlen : (getMonobankStatements history fromT toT).length < 500
    · have hlenq : history.length - q < 500 := by
        rw [hpage] at hlen
        simp only [List.length_take, List.length_drop] at hlen
        omega
      rw [statementWalk_succ_short cd fa history aid fromT toT seen n hmain.2 hlen]
      refine ⟨?_, ?_, rfl⟩
      · show (processStatements cd fa aid seen
          (getMonobankStatements history fromT toT)).processed = _
        rw [hproc]
        apply List.take_of_length_le
        simp only [List.length_drop]
        omega
      · show 1 = fetchCount (history.length - q)
        exact (fetchCount_of_lt _ hlenq).symm
    · have hlenq : q + 500 ≤ history.length := by
        rw [hpage] at hlen
        simp only [List.length_take, List.length_drop] at hlen
        omega
      have hlast : (getMonobankStatements history fromT toT).getLast?
          = some (history[q + 499]) := by
        rw [hpage, List.getLast?_eq_getElem?]
        have hl : ((history.drop q).take 500).length = 500 := by
          simp only [List.length_take, List.length_drop]
          omega
        rw [hl]
        rw [List.getElem?_take, if_pos (by norm_num), List.getElem?_drop]
        exact List.getElem?_eq_getElem (by omega)
      rw [statementWalk_succ_full cd fa history aid fromT toT seen n (history[q + 499])
        hmain.2 hlen hlast]
      have hpage' : getMonobankStatements history fromT (some (history[q + 499]).time)
          = (history.drop (q + 499)).take 500 := by
        have := getMonobankStatements_some history fromT hsort hfrom (q + 499) (by omega)
        simpa [List.get_eq_getElem] using this
      have hseen' : ∀ s, s ∈ (processStatements cd fa aid seen
            (getMonobankStatements history fromT toT)).seen
          ↔ s ∈ (history.take (q + 499 + 1)).map (fun st => st.id) := by
        intro s
        rw [processStatements_seen_eq]
        have hsplit : history.take (q + 499 + 1)
            = history.take (q + b) ++ (history.drop (q + b)).take (500 - b) := by
          rw [show q + 499 + 1 = (q + b) + (500 - b) by omega, List.take_add]
        rw [hsplit, hproc]
        simp only [List.map_append, List.mem_append, List.mem_reverse, hseen s]
        tauto
      have hrec := ih (q + 499) 1 (some (history[q + 499]).time)
        (processStatements cd fa aid seen (getMonobankStatements history fromT toT)).seen
        (le_refl 1) (by omega) hpage' hseen' (by omega) (by omega)
      have h500 : q + 499 + 1 = q + 500 := by omega
      refine ⟨?_, ?_, hrec.2.2⟩
      · show (processStatements cd fa aid seen
            (getMonobankStatements history fromT toT)).processed ++ _ = _
        rw [hproc, hrec.1, h500]
        rw [show history.drop (q + 500) = (history.drop (q + b)).drop (500 - b) by
          rw [List.drop_drop]; congr 1; omega]
        exact List.take_append_drop _ _
      · show _ + 1 = fetchCount (history.length - q)
        rw [hrec.2.1, fetchCount_of_ge (history.length - q) (by omega),
          show history.length - (q + 499) = history.length - q - 499 by omega]
        exact Nat.add_comm _ 1

/-- The synthetic statement entry at index `i` of the 1200-entry account:
distinct id, strictly decreasing timestamps. -/
def synthEntry (i : Nat) : StatementItem :=
  { id := String.mk (List.replicate i 'a'), time := 2000000 - (i : Int),
    description := "synthetic", amount := 100, balance := 0, comment := none,
    currencyCode := 980 }

/-- A synthetic bank account history of 1200 entries, newest first
(page cap 500: its full range spans three pages). -/
def synthHistory : List StatementItem := (List.range 1200).map synthEntry

theorem synthHistory_length : synthHistory.length = 1200 := by
  simp [synthHistory]

theorem synthHistory_sorted :
    synthHistory.Pairwise (fun a b => b.time < a.time) := by
  unfold synthHistory
  rw [List.pairwise_map]
  apply List.Pairwise.imp ?_ (List.pairwise_lt_range 1200)
  intro i j hij
  simp only [synthEntry]
  omega

theorem synthHistory_from : ∀ e ∈ synthHistory, (1998801 : Int) ≤ e.time := by
  intro e he
  unfold synthHistory at he
  rcases List.mem_map.mp he with ⟨i, hi, rfl⟩
  rw [List.mem_range] at hi
  simp only [synthEntry]
  omega

theorem synthHistory_ids_nodup :
    (synthHistory.map (fun st => st.id)).Nodup := by
  unfold synthHistory
  rw [List.map_map]
  apply List.Nodup.map ?_ (List.nodup_range 1200)
  intro i j h
  simp only [Function.comp, synthEntry] at h
  have hdata := congrArg String.data h
  simp only [String.data] at hdata
  have hlen := congrArg List.length hdata
  simpa using hlen

theorem fetchCount_1200 : fetchCount 1200 = 3 := by
  rw [fetchCount_of_ge 1200 (by norm_num),
    show (1200 - 499 : Nat) = 701 from rfl,
    fetchCount_of_ge 701 (by norm_num),
    show (701 - 499 : Nat) = 202 from rfl,
    fetchCount_of_lt 202 (by norm_num)]

/-- C5: the page walk, applied to a synthetic account with 1200 entries
(page cap 500) over the full range, yields every entry in the range
exactly once — 1200 processed entries, the whole history in order, with
pairwise-distinct ids (no duplicates, no gaps at the re-fetched page
boundaries) — in exactly 3 page fetches, without aborting. -/
theorem C5_pagination_complete :
    (statementWalk [] [] synthHistory "accA" 1998801 none [] 3).processed = synthHistory
    ∧ (statementWalk [] [] synthHistory "accA" 1998801 none [] 3).processed.length = 1200
    ∧ ((statementWalk [] [] synthHistory "accA" 1998801 none [] 3).processed.map
        (fun st => st.id)).Nodup
    ∧ (statementWalk [] [] synthHistory "accA" 1998801 none [] 3).fetches = 3
    ∧ (statementWalk [] [] synthHistory "accA" 1998801 none [] 3).aborted = false := by
  have hok : ∀ e ∈ synthHistory,
      ∃ p, monobankToFireflyTransaction [] [] "accA" e = .ok p :=
    fun e _ => ⟨none, rfl⟩
  have hpage : getMonobankStatements synthHistory 1998801 none
      = (synthHistory.drop 0).take 500 := by
    rw [getMonobankStatements_none synthHistory 1998801 synthHistory_from,
      List.drop_zero]
  have hseen : ∀ s : String, s ∈ ([] : List String)
      ↔ s ∈ (synthHistory.take (0 + 0)).map (fun st => st.id) := by
    intro s
    simp
  have hmain := statementWalk_sorted [] [] synthHistory "accA" 1998801
    synthHistory_sorted synthHistory_from synthHistory_ids_nodup hok
    3 0 0 none [] (by norm_num) (by rw [synthHistory_length]; norm_num) hpage hseen
    (by rw [synthHistory_length]; norm_num) (by norm_num)
  have h1 : (statementWalk [] [] synthHistory "accA" 1998801 none [] 3).processed
      = synthHistory := by
    rw [hmain.1]
    simp
  have h2 : (statementWalk [] [] synthHistory "accA" 1998801 none [] 3).fetches = 3 := by
    rw [hmain.2.1, synthHistory_length]
    simpa using fetchCount_1200
  refine ⟨h1, ?_, ?_, h2, hmain.2.2⟩
  · rw [h1, synthHistory_length]
  · rw [h1]
    exact synthHistory_ids_nodup

/-! ### Currency-mapping failure during Backfill (C6) -/

/-- A mappable entry (code 980) preceding the bad one. -/
def stOk1 : StatementItem :=
  { id := "c1", time := 500, description := "one", amount := 100, balance := 100,
    comment := none, currencyCode := 980 }

/-- An entry with an unmapped numeric currency code (999). -/
def stBad : StatementItem :=
  { id := "c2", time := 499, description := "two", amount := 200, balance := 300,
    comment := none, currencyCode := 999 }

/-- A mappable entry (code 980) following the bad one. -/
def stOk2 : StatementItem :=
  { id := "c3", time := 498, description := "three", amount := 300, balance := 600,
    comment := none, currencyCode := 980 }

/-- A bank environment where account `accA`'s history is
`[stOk1, stBad, stOk2]`. -/
def bankC : String → List StatementItem :=
  fun aid => if aid = "accA" then [stOk1, stBad, stOk2] else []

/-- C6 (counterexample): an unrecognized numeric currency code in the
middle of a Backfill page aborts the pass: only the one entry before it
gets a creation call, the walk reports the thrown error, and the entry
after it is never even reached — refuting "the enclosing Backfill pass
continues past it, other entries are unaffected". -/
theorem C6_counterexample :
    (statementWalk [acctA] [ffA] (bankC "accA") "accA" 0 none [] 2).aborted = true
    ∧ (statementWalk [acctA] [ffA] (bankC "accA") "accA" 0 none [] 2).calls.length = 1
    ∧ stOk2 ∉ (statementWalk [acctA] [ffA] (bankC "accA") "accA" 0 none [] 2).encountered := by
  refine ⟨?_, ?_, ?_⟩ <;> decide

/-- C6 (amended): numeric code 980 maps to "UAH"; an unrecognized numeric
code makes the mapper raise a hard error, and the Backfill page loop stops
at such an entry (it is recorded as seen, no creation call is made, the
rest of the page is not processed and the error propagates, aborting the
remainder of the pass; the top-level catch keeps the process alive). -/
theorem C6_amended_currency :
    numericToAlpha 980 = some "UAH"
    ∧ (∀ (cd : List MonoAccount) (fa : List FireflyAccount) (aid : String)
         (st : StatementItem) (ma : MonoAccount) (ff : FireflyAccount),
        cd.find? (fun a => a.id == aid) = some ma →
        fa.find? (fun a => a.iban == some ma.iban) = some ff →
        numericToAlpha st.currencyCode = none →
        monobankToFireflyTransaction cd fa aid st
          = .error "unknown numeric currency code")
    ∧ (∀ (cd : List MonoAccount) (fa : List FireflyAccount) (aid : String)
         (seen : List String) (st : StatementItem) (rest : List StatementItem) (e : String),
        st.id ∉ seen → monobankToFireflyTransaction cd fa aid st = .error e →
        processStatements cd fa aid seen (st :: rest)
          = ⟨st.id :: seen, [st], [st], [], true⟩) := by
  refine ⟨rfl, ?_, ?_⟩
  · intro cd fa aid st ma ff hma hff hcc
    simp [monobankToFireflyTransaction, hma, hff, hcc]
  · intro cd fa aid seen st rest e hmem herr
    exact processStatements_cons_err cd fa aid seen st rest e hmem herr

/-- Witness for C6 at the concrete bad entry. -/
theorem C6_witness :
    ([acctA].find? (fun a => a.id == "accA") = some acctA
      ∧ [ffA].find? (fun a => a.iban == some acctA.iban) = some ffA
      ∧ numericToAlpha stBad.currencyCode = none)
    ∧ monobankToFireflyTransaction [acctA] [ffA] "accA" stBad
        = .error "unknown numeric currency code" :=
  ⟨⟨rfl, rfl, rfl⟩,
    C6_amended_currency.2.1 [acctA] [ffA] "accA" stBad acctA ffA rfl rfl rfl⟩

/-! ### Anchor search (C3) -/

/-- Step equation: a tagged journal with eligible accounts but no
candidate match makes the scan continue with the remaining transactions. -/
theorem findAnchor_cons_skip (cd : List MonoAccount) (fa : List FireflyAccount)
    (bank : String → List StatementItem) (tx : FireflyTransaction)
    (rest : List FireflyTransaction) (fj : FireflyTxItem) (tail : List FireflyTxItem)
    (htx : tx.transactions = fj :: tail)
    (htag : (fj.tags.contains TRANSACTION_TAG
      || fj.external_url == some PROVENANCE_MARKER) = true)
    (helig : (cd.filter (fun a => some a.iban == fj.source_iban
      || some a.iban == fj.destination_iban)).isEmpty = false)
    (hana : findAnchorAccounts fa bank fj (cd.filter (fun a => some a.iban == fj.source_iban
      || some a.iban == fj.destination_iban)) = .ok none) :
    findAnchor cd fa bank (tx :: rest) = findAnchor cd fa bank rest := by
  obtain ⟨txs⟩ := tx
  simp only [FireflyTransaction.mk.injEq] at htx ⊢
  subst htx
  simp only [findAnchor, htag, Bool.not_true, Bool.false_eq_true, if_false, helig, hana]

/-- Step equation: a tagged journal whose candidate-account loop yields a
match ends the scan with that match. -/
theorem findAnchor_cons_found (cd : List MonoAccount) (fa : List FireflyAccount)
    (bank : String → List StatementItem) (tx : FireflyTransaction)
    (rest : List FireflyTransaction) (fj : FireflyTxItem) (tail : List FireflyTxItem)
    (r : MonoAccount × StatementItem)
    (htx : tx.transactions = fj :: tail)
    (htag : (fj.tags.contains TRANSACTION_TAG
      || fj.external_url == some PROVENANCE_MARKER) = true)
    (helig : (cd.filter (fun a => some a.iban == fj.source_iban
      || some a.iban == fj.destination_iban)).isEmpty = false)
    (hana : findAnchorAccounts fa bank fj (cd.filter (fun a => some a.iban == fj.source_iban
      || some a.iban == fj.destination_iban)) = .ok (some r)) :
    findAnchor cd fa bank (tx :: rest) = some r := by
  obtain ⟨txs⟩ := tx
  simp only [FireflyTransaction.mk.injEq] at htx ⊢
  subst htx
  simp only [findAnchor, htag, Bool.not_true, Bool.false_eq_true, if_false, helig, hana]

/-- Step equation: within one journal, a candidate account with no
matching statement passes the search on to the remaining accounts. -/
theorem findAnchorAccounts_cons_nomatch (fa : List FireflyAccount)
    (bank : String → List StatementItem) (fj : FireflyTxItem) (account : MonoAccount)
    (rest : List MonoAccount) (ffa : FireflyAccount)
    (hlook : (if fj.type == "withdrawal"
        then fa.find? (fun it => some it.id == fj.source_id)
        else fa.find? (fun it => some it.id == fj.destination_id)) = some ffa)
    (hfind : (getMonobankStatements (bank account.id) (dayStart fj.date)
        (some (dayEnd fj.date))).find? (fun st => anchorCond fj ffa account st) = none) :
    findAnchorAccounts fa bank fj (account :: rest) = findAnchorAccounts fa bank fj rest := by
  simp only [findAnchorAccounts, hlook, hfind]

/-- Step equation: a candidate account with a matching statement is the
anchor. -/
theorem findAnchorAccounts_cons_match (fa : List FireflyAccount)
    (bank : String → List StatementItem) (fj : FireflyTxItem) (account : MonoAccount)
    (rest : List MonoAccount) (ffa : FireflyAccount) (st : StatementItem)
    (hlook : (if fj.type == "withdrawal"
        then fa.find? (fun it => some it.id == fj.source_id)
        else fa.find? (fun it => some it.id == fj.destination_id)) = some ffa)
    (hfind : (getMonobankStatements (bank account.id) (dayStart fj.date)
        (some (dayEnd fj.date))).find? (fun st => anchorCond fj ffa account st) = some st) :
    findAnchorAccounts fa bank fj (account :: rest) = .ok (some (account, st)) := by
  simp only [findAnchorAccounts, hlook, hfind]

/-- A second monobank account, IBAN `UA22`. -/
def acctB : MonoAccount :=
  { id := "accB", currencyCode := 980, balance := 10000, iban := "UA22" }

/-- The Firefly account matching `acctB`, current balance 100.00. -/
def ffB : FireflyAccount := { id := 9, iban := some "UA22", current_balance := 100 }

/-- The statement entry matching `fjD` (deposit of 7.00, balance-after
100.00 in minor units), timestamped inside the day of both journals. -/
def stM : StatementItem :=
  { id := "sM", time := 864100, description := "match", amount := 700,
    balance := 10000, comment := none, currencyCode := 980 }

/-- A tagged withdrawal journal (5.00 out of `UA22`) with no matching
statement entry in its day window. -/
def fjW : FireflyTxItem :=
  { date := 864000, tags := ["monosync"], source_id := some 9,
    source_iban := some "UA22", destination_id := none, destination_iban := none,
    amount := 5, type := "withdrawal", external_id := none, external_url := none }

/-- A tagged deposit journal (7.00 into `UA22`) matched by `stM`. -/
def fjD : FireflyTxItem :=
  { date := 864000, tags := ["monosync"], source_id := none, source_iban := none,
    destination_id := some 9, destination_iban := some "UA22",
    amount := 7, type := "deposit", external_id := none, external_url := none }

/-- The transaction group holding `fjW`. -/
def txW : FireflyTransaction := ⟨[fjW]⟩

/-- The transaction group holding `fjD`. -/
def txD : FireflyTransaction := ⟨[fjD]⟩

/-- A bank environment where every account's history is `[stM]`. -/
def bankB : String → List StatementItem := fun _ => [stM]

theorem anchorCond_fjW_stM : anchorCond fjW ffB acctB stM = false := by
  have h1 : jsRound (ffB.current_balance * 100) = 10000 := by
    norm_num [ffB, jsRound_eq_round, round_eq]
  have h2 : jsRound ((-fjW.amount) * 100) = -500 := by
    norm_num [fjW, jsRound_eq_round, round_eq]
  simp only [anchorCond, h1, h2]
  decide

theorem anchorCond_fjD_stM : anchorCond fjD ffB acctB stM = true := by
  have h1 : jsRound (ffB.current_balance * 100) = 10000 := by
    norm_num [ffB, jsRound_eq_round, round_eq]
  have h2 : jsRound (fjD.amount * 100) = 700 := by
    norm_num [fjD, jsRound_eq_round, round_eq]
  simp only [anchorCond, h1, h2]
  decide

theorem anchorW_none :
    findAnchorAccounts [ffB] bankB fjW [acctB] = .ok none := by
  rw [findAnchorAccounts_cons_nomatch [ffB] bankB fjW acctB [] ffB (by decide) ?_]
  · rfl
  · have : getMonobankStatements (bankB acctB.id) (dayStart fjW.date)
        (some (dayEnd fjW.date)) = [stM] := by decide
    rw [this]
    simp [List.find?, anchorCond_fjW_stM]

theorem anchorD_some :
    findAnchorAccounts [ffB] bankB fjD [acctB] = .ok (some (acctB, stM)) := by
  apply findAnchorAccounts_cons_match [ffB] bankB fjD acctB [] ffB stM (by decide)
  have : getMonobankStatements (bankB acctB.id) (dayStart fjD.date)
      (some (dayEnd fjD.date)) = [stM] := by decide
  rw [this]
  simp [List.find?, anchorCond_fjD_stM]

theorem eligW : ([acctB].filter (fun a => some a.iban == fjW.source_iban
    || some a.iban == fjW.destination_iban)) = [acctB] := by decide

theorem eligD : ([acctB].filter (fun a => some a.iban == fjD.source_iban
    || some a.iban == fjD.destination_iban)) = [acctB] := by decide

/-- C3 (counterexample): the first provenance-tagged transaction (`txW`)
has a candidate account (`acctB`) but no statement of its day matches it —
yet anchor search does not abort: it moves on to the next tagged
transaction (`txD`) and returns its match, so recovery backfills instead
of proceeding to Live without backfilling. -/
theorem C3_counterexample :
    (fjW.tags.contains TRANSACTION_TAG
      || fjW.external_url == some PROVENANCE_MARKER) = true
    ∧ ([acctB].filter (fun a => some a.iban == fjW.source_iban
        || some a.iban == fjW.destination_iban)) = [acctB]
    ∧ findAnchorAccounts [ffB] bankB fjW [acctB] = .ok none
    ∧ findAnchor [acctB] [ffB] bankB [txW, txD] = some (acctB, stM) := by
  refine ⟨by decide, eligW, anchorW_none, ?_⟩
  rw [findAnchor_cons_skip [acctB] [ffB] bankB txW [txD] fjW [] rfl (by decide)
    (by decide) (by rw [eligW]; exact anchorW_none)]
  exact findAnchor_cons_found [acctB] [ffB] bankB txD [] fjD [] (acctB, stM) rfl
    (by decide) (by decide) (by rw [eligD]; exact anchorD_some)

/-- C3 (amended): anchor search scans the newest-first transaction
sequence over all provenance-tagged transactions, not only the first: a
tagged transaction whose candidate accounts yield no match is skipped and
the scan continues; recovery gives up (no anchor) only once the sequence
is exhausted (or a lookup crash aborts it).  Any returned anchor comes
from a candidate account of the tagged journal and is a statement of that
journal's calendar day satisfying the balance/amount/iban-side
condition. -/
theorem C3_amended_scan :
    (∀ (cd : List MonoAccount) (fa : List FireflyAccount)
       (bank : String → List StatementItem) (tx : FireflyTransaction)
       (rest : List FireflyTransaction) (fj : FireflyTxItem) (tail : List FireflyTxItem),
      tx.transactions = fj :: tail →
      (fj.tags.contains TRANSACTION_TAG
        || fj.external_url == some PROVENANCE_MARKER) = true →
      (cd.filter (fun a => some a.iban == fj.source_iban
        || some a.iban == fj.destination_iban)).isEmpty = false →
      findAnchorAccounts fa bank fj (cd.filter (fun a => some a.iban == fj.source_iban
        || some a.iban == fj.destination_iban)) = .ok none →
      findAnchor cd fa bank (tx :: rest) = findAnchor cd fa bank rest)
    ∧ (∀ (cd : List MonoAccount) (fa : List FireflyAccount)
        (bank : String → List StatementItem), findAnchor cd fa bank [] = none)
    ∧ (∀ (fa : List FireflyAccount) (bank : String → List StatementItem)
         (fj : FireflyTxItem) (accounts : List MonoAccount) (a : MonoAccount)
         (st : StatementItem),
        findAnchorAccounts fa bank fj accounts = .ok (some (a, st)) →
        a ∈ accounts
        ∧ ∃ ffa, (if fj.type == "withdrawal"
              then fa.find? (fun it => some it.id == fj.source_id)
              else fa.find? (fun it => some it.id == fj.destination_id)) = some ffa
          ∧ st ∈ getMonobankStatements (bank a.id) (dayStart fj.date)
              (some (dayEnd fj.date))
          ∧ anchorCond fj ffa a st = true) := by
  refine ⟨findAnchor_cons_skip, fun cd fa bank => rfl, ?_⟩
  intro fa bank fj accounts
  induction accounts with
  | nil =>
    intro a st h
    simp [findAnchorAccounts] at h
  | cons acc rest ih =>
    intro a st h
    rw [show findAnchorAccounts fa bank fj (acc :: rest)
        = (match (if fj.type == "withdrawal"
            then fa.find? (fun it => some it.id == fj.source_id)
            else fa.find? (fun it => some it.id == fj.destination_id)) with
          | none => Except.error ()
          | some ffa =>
            match (getMonobankStatements (bank acc.id) (dayStart fj.date)
                (some (dayEnd fj.date))).find? (fun st => anchorCond fj ffa acc st) with
            | none => findAnchorAccounts fa bank fj rest
            | some st1 => Except.ok (some (acc, st1))) from rfl] at h
    cases hlook : (if fj.type == "withdrawal"
        then fa.find? (fun it => some it.id == fj.source_id)
        else fa.find? (fun it => some it.id == fj.destination_id)) with
    | none =>
      rw [hlook] at h
      dsimp only at h
      simp at h
    | some ffa =>
      rw [hlook] at h
      dsimp only at h
      cases hfind : (getMonobankStatements (bank acc.id) (dayStart fj.date)
          (some (dayEnd fj.date))).find? (fun st => anchorCond fj ffa acc st) with
      | none =>
        rw [hfind] at h
        dsimp only at h
        rcases ih a st h with ⟨hmem, ffa', hlook', hmem', hcond'⟩
        exact ⟨List.mem_cons_of_mem _ hmem, ffa', hlook.symm.trans hlook', hmem', hcond'⟩
      | some st0 =>
        rw [hfind] at h
        dsimp only at h
        simp only [Except.ok.injEq, Option.some.injEq, Prod.mk.injEq] at h
        obtain ⟨rfl, rfl⟩ := h
        refine ⟨List.mem_cons_self _ _, ffa, rfl, ?_, ?_⟩
        · exact List.mem_of_find?_eq_some hfind
        · exact List.find?_some hfind

/-- Witness for C3 at the concrete unmatched tagged transaction. -/
theorem C3_witness :
    findAnchor [acctB] [ffB] bankB [txW]
      = findAnchor [acctB] [ffB] bankB ([] : List FireflyTransaction) :=
  C3_amended_scan.1 [acctB] [ffB] bankB txW [] fjW [] rfl (by decide) (by decide)
    (by rw [eligW]; exact anchorW_none)

end MonoSync
